import Mathlib

/-!
Shallow embedding of the ZIP decoding core in `src/main.rs` (crate `xpack`).

A file is modelled as a `List Nat` of byte values; the seekable/readable
byte source is captured by `readExact`, which mirrors Rust's
`seek + read_exact`: it yields the requested slice exactly when enough
bytes exist at the position, and fails otherwise (Rust's `read_exact`
fails with `UnexpectedEof` on a short read, and the `?` operator
propagates that error out of the enclosing function).

Each of the three pipeline functions — `read_end_central_dir`,
`read_central_directory`, `extract_file` — is translated from the source
body statement by statement.  A Rust `io::Result` return value becomes
`RunResult`: `ok v` for `Ok(v)`, `error` for an `Err(_)` propagated with
`?` (or built with `io::Error::new`), and `crash` for a process panic
(an out-of-bounds slice index, or `Option::unwrap` on `None`).
Machine integers are `Nat`s read little-endian from bytes; the one place
the source performs arithmetic that can overflow its integer width —
`local_name_length + local_extra_length` on `u16` in `extract_file` —
is modelled with an explicit `% 2^16` (`localSkipDistance`), the
release-build wrapping semantics.

`eprintln!` diagnostics, CLI glue in `main`, and the filesystem sink
write inside `extract_file` (an external collaborator per the design:
the core only hands bytes to a sink) are not part of the embedding.
The raw-deflate inflate capability is likewise external and is passed
in as a function `inflate : List Nat → Option (List Nat)`, `none`
standing for a malformed-stream failure of `read_to_end`.
-/

/-- Outcome of running one of the Rust functions: `Ok(v)`, a propagated
`io::Error`, or a process panic. -/
inductive RunResult (α : Type) where
  | ok (val : α)
  | error
  | crash
  deriving DecidableEq, Repr

/-- `seek(SeekFrom::Start(pos))` followed by `read_exact` of `n` bytes:
the exact `n`-byte slice at `pos` when available, otherwise failure. -/
def readExact (file : List Nat) (pos n : Nat) : Option (List Nat) :=
  if pos + n ≤ file.length then some ((file.drop pos).take n) else none

/-- `u16::from_le_bytes` on two byte values. -/
def le16 (b0 b1 : Nat) : Nat := b0 + 256 * b1

/-- `u32::from_le_bytes` on four byte values. -/
def le32 (b0 b1 b2 b3 : Nat) : Nat :=
  b0 + 256 * b1 + 65536 * b2 + 16777216 * b3

/-- `END_CENTRAL_DIR_SIGNATURE.to_le_bytes()` for `0x06054b50`. -/
def eocdSigBytes : List Nat := [0x50, 0x4b, 0x05, 0x06]

/-- `CENTRAL_DIR_SIGNATURE.to_le_bytes()` for `0x02014b50`. -/
def cdSigBytes : List Nat := [0x50, 0x4b, 0x01, 0x02]

/-- `LOCAL_FILE_HEADER_SIGNATURE.to_le_bytes()` for `0x04034b50`. -/
def localSigBytes : List Nat := [0x50, 0x4b, 0x03, 0x04]

/-- `buf[i..i + 4] == signature_bytes` — the comparison made at index `i`
of the EOCD backward scan (`false` as well when fewer than 4 bytes
remain, a case the source loop bound already excludes). -/
def sigAt (buf : List Nat) (i : Nat) : Bool :=
  (buf.drop i).take 4 == eocdSigBytes

/-- The loop `for i in (0..buf.len().saturating_sub(4)).rev()` of
`read_end_central_dir`, counting down from `n - 1`: the first index (from
the top) whose 4-byte window equals the EOCD signature. -/
def scanBackAux (buf : List Nat) : Nat → Option Nat
  | 0 => none
  | n + 1 => if sigAt buf n then some n else scanBackAux buf n

/-- The whole backward scan: highest matching index strictly below
`buf.len().saturating_sub(4)`, or `none` (`signature_position == -1`). -/
def scanBack (buf : List Nat) : Option Nat :=
  scanBackAux buf (buf.length - 4)

/-- The tail window read by `read_end_central_dir`:
`search_size = min(1024, file_size)` bytes taken from the end. -/
def tailWindow (file : List Nat) : List Nat :=
  file.drop (file.length - min 1024 file.length)

/-- The `EndCentralDirectory` struct of the source. -/
structure EndCentralDirectory where
  disk_num : Nat
  start_disk : Nat
  disk_entries : Nat
  total_entries : Nat
  dir_size : Nat
  dir_offset : Nat
  comment_len : Nat
  deriving DecidableEq, Repr

/-- Field-by-field construction of `EndCentralDirectory` from the 18
record bytes following the signature, as in the source
(`u16::from_le_bytes(record_bytes[0..2] ...)` and so on). -/
def parseEocd (r : List Nat) : EndCentralDirectory :=
  { disk_num := le16 (r.getD 0 0) (r.getD 1 0)
    start_disk := le16 (r.getD 2 0) (r.getD 3 0)
    disk_entries := le16 (r.getD 4 0) (r.getD 5 0)
    total_entries := le16 (r.getD 6 0) (r.getD 7 0)
    dir_size := le32 (r.getD 8 0) (r.getD 9 0) (r.getD 10 0) (r.getD 11 0)
    dir_offset := le32 (r.getD 12 0) (r.getD 13 0) (r.getD 14 0) (r.getD 15 0)
    comment_len := le16 (r.getD 16 0) (r.getD 17 0) }

/-- `read_end_central_dir`: read the `min(1024, size)` tail window, scan
backward for the EOCD signature, return `Ok(None)` when absent; on a
match take `record_bytes = &buf[pos + 4..pos + 22]` — a panic when the
slice end exceeds the window — parse the record and return
`Ok(Some(dir_offset))`. -/
def read_end_central_dir (file : List Nat) : RunResult (Option Nat) :=
  let buf := tailWindow file
  match scanBack buf with
  | none => .ok none
  | some pos =>
    if pos + 22 ≤ buf.length then
      .ok (some (parseEocd ((buf.drop (pos + 4)).take 18)).dir_offset)
    else
      .crash

/-- The `ZipFileEntry` struct of the source (the filename kept as its
raw bytes; the source additionally requires them to be valid UTF-8,
which `utf8Valid` below checks). -/
structure ZipFileEntry where
  filename : List Nat
  compressed_size : Nat
  uncompressed_size : Nat
  compression_method : Nat
  file_offset : Nat
  deriving DecidableEq, Repr

/-- A UTF-8 continuation byte, `0x80..=0xBF`. -/
def utf8Cont (b : Nat) : Bool := 0x80 ≤ b && b < 0xC0

/-- Strict UTF-8 validity of a byte list, as checked by Rust's
`String::from_utf8`: no overlong encodings, no surrogate code points,
nothing above U+10FFFF. -/
def utf8Valid : List Nat → Bool
  | [] => true
  | b :: rest =>
    if b < 0x80 then utf8Valid rest
    else if b < 0xC2 then false
    else if b < 0xE0 then
      match rest with
      | c1 :: rest2 => utf8Cont c1 && utf8Valid rest2
      | [] => false
    else if b < 0xF0 then
      match rest with
      | c1 :: c2 :: rest2 =>
        (if b = 0xE0 then 0xA0 ≤ c1 && c1 < 0xC0
         else if b = 0xED then 0x80 ≤ c1 && c1 < 0xA0
         else utf8Cont c1) && utf8Cont c2 && utf8Valid rest2
      | _ => false
    else if b < 0xF5 then
      match rest with
      | c1 :: c2 :: c3 :: rest2 =>
        (if b = 0xF0 then 0x90 ≤ c1 && c1 < 0xC0
         else if b = 0xF4 then 0x80 ≤ c1 && c1 < 0x90
         else utf8Cont c1) && utf8Cont c2 && utf8Cont c3 && utf8Valid rest2
      | _ => false
    else false

/-- `read_central_directory`: panics on `offset.unwrap()` when given
`None`; seeks to the offset and reads a 4-byte signature (a short read
propagates as an error); on mismatch returns `Ok(None)`.  On a match it
parses exactly one Central Directory Header — compression method at
offset +10, sizes at +20, name/extra/comment lengths at +28, local
header offset at +42, then `filename_length` name bytes at +46, decoded
as UTF-8 (failure propagates as an error) — pushes the single
`ZipFileEntry` and returns `Ok(Some(file_entries))`.  There is no loop
over subsequent headers in the source. -/
def read_central_directory (file : List Nat) (offset : Option Nat) :
    RunResult (Option (List ZipFileEntry)) :=
  match offset with
  | none => .crash
  | some off =>
    match readExact file off 4 with
    | none => .error
    | some sigBuf =>
      if sigBuf ≠ cdSigBytes then .ok none
      else
        match readExact file (off + 10) 2 with
        | none => .error
        | some cm =>
          match readExact file (off + 20) 8 with
          | none => .error
          | some sizes =>
            match readExact file (off + 28) 6 with
            | none => .error
            | some lens =>
              match readExact file (off + 42) 4 with
              | none => .error
              | some offBuf =>
                match readExact file (off + 46) (le16 (lens.getD 0 0) (lens.getD 1 0)) with
                | none => .error
                | some nameBuf =>
                  if utf8Valid nameBuf then
                    .ok (some [{ filename := nameBuf
                                 compressed_size := le32 (sizes.getD 0 0) (sizes.getD 1 0) (sizes.getD 2 0) (sizes.getD 3 0)
                                 uncompressed_size := le32 (sizes.getD 4 0) (sizes.getD 5 0) (sizes.getD 6 0) (sizes.getD 7 0)
                                 compression_method := le16 (cm.getD 0 0) (cm.getD 1 0)
                                 file_offset := le32 (offBuf.getD 0 0) (offBuf.getD 1 0) (offBuf.getD 2 0) (offBuf.getD 3 0) }])
                  else .error

/-- The distance `extract_file` seeks past the local header's variable
fields: `(local_name_length + local_extra_length) as i64`, where the
addition is performed on `u16` and therefore wraps modulo 2^16 (release
build) before the widening cast. -/
def localSkipDistance (nameLen extraLen : Nat) : Nat :=
  (nameLen + extraLen) % 65536

/-- The absolute position of the payload in `extract_file`: the cursor
after the 30 fixed local-header bytes plus the seek past the
variable-length fields (with the `u16` wrap of `localSkipDistance`). -/
def payloadStart (entry : ZipFileEntry) (localHeader : List Nat) : Nat :=
  entry.file_offset + 30 +
    localSkipDistance (le16 (localHeader.getD 26 0) (localHeader.getD 27 0))
      (le16 (localHeader.getD 28 0) (localHeader.getD 29 0))

/-- `extract_file`: read the 30-byte Local File Header at
`entry.file_offset` (short read propagates as an error); a signature
mismatch returns `Ok(None)`; read the name/extra lengths at bytes 26/28,
seek past `localSkipDistance` of them, read exactly
`entry.compressed_size` payload bytes (short read propagates); dispatch
on the method: `0` returns the payload verbatim, `8` runs the external
inflate (failure is an error), anything else returns `Ok(None)`. -/
def extract_file (file : List Nat) (entry : ZipFileEntry)
    (inflate : List Nat → Option (List Nat)) : RunResult (Option (List Nat)) :=
  match readExact file entry.file_offset 30 with
  | none => .error
  | some localHeader =>
    if localHeader.take 4 ≠ localSigBytes then .ok none
    else
      match readExact file (payloadStart entry localHeader) entry.compressed_size with
      | none => .error
      | some payload =>
        match entry.compression_method with
        | 0 => .ok (some payload)
        | 8 =>
          match inflate payload with
          | some decompressed => .ok (some decompressed)
          | none => .error
        | _ => .ok none

/-- Central directory header bytes for a one-byte-name, store-method,
zero-size entry at local header offset 0, used as concrete test input. -/
def c1cdh (nameByte : Nat) : List Nat :=
  [0x50, 0x4b, 0x01, 0x02,
   0, 0, 0, 0, 0, 0,
   0, 0,
   0, 0, 0, 0, 0, 0, 0, 0,
   0, 0, 0, 0,
   0, 0, 0, 0,
   1, 0, 0, 0, 0, 0,
   0, 0, 0, 0, 0, 0, 0, 0,
   0, 0, 0, 0,
   nameByte]

/-- EOCD record declaring `total_entries = 2`, directory size 94 (two
47-byte headers) and directory offset 0. -/
def c1eocd : List Nat :=
  [0x50, 0x4b, 0x05, 0x06,
   0, 0, 0, 0,
   2, 0, 2, 0,
   94, 0, 0, 0,
   0, 0, 0, 0,
   0, 0]

/-- A 116-byte well-formed single-disk archive image: two central
directory headers (names `a` and `b`) followed by an EOCD declaring
both. -/
def c1file : List Nat := c1cdh 97 ++ c1cdh 98 ++ c1eocd

/-- An 8-byte tail window holding the EOCD signature bytes twice: once
at index 0 and once occupying the final four bytes (index 4). -/
def c3window : List Nat :=
  [0x50, 0x4b, 0x05, 0x06, 0x50, 0x4b, 0x05, 0x06]

/-- A 26-byte file whose only EOCD-signature occurrence occupies the
final four bytes of the window (begins 4 bytes before the end). -/
def c4window : List Nat := List.replicate 22 0 ++ [0x50, 0x4b, 0x05, 0x06]

/-- A 10-byte file whose EOCD-signature occurrence at index 0 is found
by the scan but leaves fewer than 22 bytes for the record slice. -/
def c4crashFile : List Nat := [0x50, 0x4b, 0x05, 0x06, 0, 0, 0, 0, 0, 0]

/-- A 31-byte file: a local file header with empty name/extra fields
followed by a single payload byte. -/
def c6file : List Nat := localSigBytes ++ List.replicate 26 0 ++ [9]

/-- A deflate-method entry (method 8) over `c6file`, deliberately
declaring `uncompressed_size = 5`. -/
def c6entry : ZipFileEntry := ⟨[97], 1, 5, 8, 0⟩

/-- An inflate capability that decompresses anything to `[1, 2, 3]` —
three bytes, differing from `c6entry`'s declared size of five. -/
def c6inflate : List Nat → Option (List Nat) := fun _ => some [1, 2, 3]

/-- A 32-byte file: a local file header with empty name/extra fields
followed by the two payload bytes `hi`. -/
def c7file : List Nat := localSigBytes ++ List.replicate 26 0 ++ [104, 105]

/-- A store-method entry (method 0) of compressed size 2 over `c7file`. -/
def c7entry : ZipFileEntry := ⟨[97], 2, 2, 0, 0⟩

/-- A 22-byte file that is exactly one EOCD record with
`total_entries = 2` and `central_directory_offset = 7`. -/
def c10file : List Nat :=
  [0x50, 0x4b, 0x05, 0x06, 1, 0, 0, 0, 2, 0, 2, 0, 94, 0, 0, 0, 7, 0, 0, 0, 0, 0]

/-- Soundness and maximality of the backward scan loop: a returned index
is below the loop's upper bound, matches the signature, and no higher
index below the bound matches. -/
theorem scanBackAux_spec (buf : List Nat) :
    ∀ n p, scanBackAux buf n = some p →
      sigAt buf p = true ∧ p < n ∧ ∀ j, p < j → j < n → sigAt buf j = false := by
  intro n
  induction n with
  | zero => intro p h; simp [scanBackAux] at h
  | succ n ih =>
    intro p h
    simp only [scanBackAux] at h
    by_cases hs : sigAt buf n = true
    · rw [if_pos hs] at h
      obtain rfl : n = p := by injection h
      exact ⟨hs, Nat.lt_succ_self _, fun j hj1 hj2 => absurd hj2 (by omega)⟩
    · rw [if_neg hs] at h
      obtain ⟨h1, h2, h3⟩ := ih p h
      refine ⟨h1, Nat.lt_succ_of_lt h2, fun j hj1 hj2 => ?_⟩
      rcases Nat.lt_succ_iff_lt_or_eq.mp hj2 with h4 | rfl
      · exact h3 j hj1 h4
      · simp only [Bool.not_eq_true] at hs
        exact hs

/-- When no index below the loop bound matches the signature, the
backward scan loop returns `none`. -/
theorem scanBackAux_none_of_no_match (buf : List Nat) :
    ∀ n, (∀ i, i < n → sigAt buf i = false) → scanBackAux buf n = none := by
  intro n
  induction n with
  | zero => intro _; rfl
  | succ n ih =>
    intro h
    simp only [scanBackAux]
    rw [if_neg]
    · exact ih fun i hi => h i (Nat.lt_succ_of_lt hi)
    · simp [h n (Nat.lt_succ_self n)]

/-- Reading position `k` of the `n`-byte slice taken at `p` is reading
position `p + k` of the underlying list. -/
theorem getD_drop_take (l : List Nat) (p n k : Nat) (hk : k < n) :
    ((l.drop p).take n).getD k 0 = l.getD (p + k) 0 := by
  simp [List.getD_eq_getElem?_getD, List.getElem?_take, hk, List.getElem?_drop]

/-- C1 (code bug evidence): on the concrete well-formed two-entry
archive `c1file`, the EOCD locator reports directory offset 0 and the
EOCD declares `total_entries = 2`, yet `read_central_directory` started
there returns a single-element sequence (the entry named `a`): the
source walks no loop, so the entry count 1 differs from the declared
and actual count 2. -/
theorem c1_walker_returns_single_entry :
    read_end_central_dir c1file = .ok (some 0) ∧
    (parseEocd ((tailWindow c1file).drop 98 |>.take 18)).total_entries = 2 ∧
    read_central_directory c1file (some 0) = .ok (some [⟨[97], 0, 0, 0, 0⟩]) :=
  ⟨by decide, by decide, by decide⟩

/-- C2 counterexample: on the input consisting of exactly the 4
central-directory signature bytes, the walk matches the signature and
then hits a short read, and `read_central_directory` propagates it as an
error instead of terminating successfully with the accumulated
entries. -/
theorem c2_short_read_propagates_error :
    read_central_directory [0x50, 0x4b, 0x01, 0x02] (some 0) = .error := by
  decide

/-- C2 as amended: on a central-directory signature mismatch the walk
does terminate successfully (with no entries, reported as `None`); only
the short-read half of the claim fails. -/
theorem c2_signature_mismatch_clean_stop (file : List Nat) (off : Nat)
    (sigBuf : List Nat) (hread : readExact file off 4 = some sigBuf)
    (hneq : sigBuf ≠ cdSigBytes) :
    read_central_directory file (some off) = .ok none := by
  simp only [read_central_directory, hread]
  rw [if_pos hneq]

/-- C2 witness: the amended theorem applied to a concrete 4-byte input
whose leading bytes are not the central-directory signature. -/
theorem c2_signature_mismatch_clean_stop_witness :
    read_central_directory [0, 0, 0, 0] (some 0) = .ok none :=
  c2_signature_mismatch_clean_stop [0, 0, 0, 0] 0 [0, 0, 0, 0]
    (by decide) (by decide)

/-- C3 counterexample: in the window `c3window` the EOCD signature bytes
occur at index 4 — occupying the final four bytes, hence closest to the
end — but the backward scan returns index 0: its loop bound
`0..len.saturating_sub(4)` never examines index `len - 4`. -/
theorem c3_scan_misses_final_occurrence :
    scanBack c3window = some 0 ∧ sigAt c3window 4 = true := by
  decide

/-- C3 as amended: whatever index the backward scan returns matches the
signature and is maximal among the scanned candidates — all indices
leaving at least one byte after the 4-byte signature (`i + 5 ≤ len`);
an occurrence occupying the exact final four bytes of the window is
outside the scanned range. -/
theorem c3_scan_returns_highest_scanned_match (buf : List Nat) (p : Nat)
    (h : scanBack buf = some p) :
    sigAt buf p = true ∧
    ∀ j, j + 5 ≤ buf.length → sigAt buf j = true → j ≤ p := by
  obtain ⟨h1, _, h3⟩ := scanBackAux_spec buf (buf.length - 4) p h
  refine ⟨h1, fun j hj hsig => ?_⟩
  by_contra hlt
  push_neg at hlt
  have hfalse := h3 j hlt (by omega)
  rw [hfalse] at hsig
  exact absurd hsig (by simp)

/-- C3 witness: the amended theorem applied to a concrete 5-byte window
with the signature at index 0. -/
theorem c3_scan_returns_highest_scanned_match_witness :
    sigAt [0x50, 0x4b, 0x05, 0x06, 0] 0 = true :=
  (c3_scan_returns_highest_scanned_match [0x50, 0x4b, 0x05, 0x06, 0] 0
    (by decide)).1

/-- C4 counterexample: in `c4window` the last (only) occurrence of the
EOCD signature begins 4 bytes before the end of the 26-byte window —
fewer than 22 — yet no out-of-bounds indexing happens:
the scan's loop bound skips that occurrence and the function returns
`Ok(None)` rather than panicking. -/
theorem c4_final_occurrence_no_panic :
    read_end_central_dir c4window = .ok none ∧
    sigAt (tailWindow c4window) 22 = true ∧
    (tailWindow c4window).length = 26 := by
  decide

/-- C4 as amended: whenever the backward scan does return a match whose
18-byte record would extend past the window (`len < pos + 22` — possible
for matches beginning 5 to 21 bytes before the end), the slice
`buf[pos + 4..pos + 22]` indexes out of bounds and the EOCD parse
panics instead of returning an `io::Result`. -/
theorem c4_eocd_parse_can_crash (file : List Nat) (pos : Nat)
    (hscan : scanBack (tailWindow file) = some pos)
    (hshort : (tailWindow file).length < pos + 22) :
    read_end_central_dir file = .crash := by
  simp only [read_end_central_dir, hscan]
  rw [if_neg (by omega)]

/-- C4 witness: the amended theorem applied to `c4crashFile`, whose
signature occurrence at index 0 of the 10-byte window leaves only 6
record bytes. -/
theorem c4_eocd_parse_can_crash_witness :
    read_end_central_dir c4crashFile = .crash :=
  c4_eocd_parse_can_crash c4crashFile 0 (by decide) (by decide)

/-- C5: the extractor's skip past the local header's variable fields is
computed in 16-bit arithmetic, so whenever
`name_length + extra_length ≥ 2^16` (each operand being a legal `u16`)
the computed distance wraps to `name_length + extra_length - 2^16` and
is strictly smaller than the true combined length: the seek does not
advance by the full amount. -/
theorem c5_skip_distance_wraps (n e : Nat) (hn : n < 65536) (he : e < 65536)
    (hsum : 65536 ≤ n + e) :
    localSkipDistance n e = n + e - 65536 ∧ localSkipDistance n e < n + e := by
  unfold localSkipDistance
  omega

/-- C5 witness: at `name_length = 65535`, `extra_length = 1` the skip
distance wraps to 0. -/
theorem c5_skip_distance_wraps_witness :
    localSkipDistance 65535 1 = 65535 + 1 - 65536 ∧
    localSkipDistance 65535 1 < 65535 + 1 :=
  c5_skip_distance_wraps 65535 1 (by decide) (by decide) (by decide)

/-- C6: for a deflate-method entry whose header and payload reads
succeed, the outcome of `extract_file` is decided by the external
inflate alone: a successful inflate yields the decompressed bytes as a
successful result — with no condition at all on how the decompressed
length compares to the declared `uncompressed_size`, so a mismatch is
at most a reported warning — while an inflate failure is an error for
this entry's extraction. -/
theorem c6_deflate_outcome (file : List Nat) (entry : ZipFileEntry)
    (inflate : List Nat → Option (List Nat)) (lh payload : List Nat)
    (hhdr : readExact file entry.file_offset 30 = some lh)
    (hsig : lh.take 4 = localSigBytes)
    (hm : entry.compression_method = 8)
    (hpay : readExact file (payloadStart entry lh) entry.compressed_size =
      some payload) :
    (∀ out, inflate payload = some out →
      extract_file file entry inflate = .ok (some out)) ∧
    (inflate payload = none → extract_file file entry inflate = .error) := by
  constructor
  · intro out hout
    simp only [extract_file, hhdr]
    rw [if_neg (not_not_intro hsig)]
    simp only [hpay, hm, hout]
  · intro hout
    simp only [extract_file, hhdr]
    rw [if_neg (not_not_intro hsig)]
    simp only [hpay, hm, hout]

/-- C6 witness: the deflate theorem applied to `c6file`/`c6entry` with
an inflate producing 3 bytes against a declared size of 5 — the
size discrepancy notwithstanding, extraction succeeds with those
bytes. -/
theorem c6_deflate_outcome_witness :
    extract_file c6file c6entry c6inflate = .ok (some [1, 2, 3]) ∧
    c6entry.uncompressed_size = 5 :=
  ⟨(c6_deflate_outcome c6file c6entry c6inflate
      (localSigBytes ++ List.replicate 26 0) [9]
      (by decide) (by decide) (by decide) (by decide)).1 [1, 2, 3] rfl,
   by decide⟩

/-- C7: for a store-method entry whose local header read and signature
check succeed, `extract_file` reads exactly `entry.compressed_size`
bytes at the position after the header's variable fields and returns
precisely that slice, verbatim and of the declared length, when the
source holds enough bytes; when it cannot supply them, the entry's
extraction is an error. -/
theorem c7_store_verbatim (file : List Nat) (entry : ZipFileEntry)
    (inflate : List Nat → Option (List Nat)) (lh : List Nat)
    (hhdr : readExact file entry.file_offset 30 = some lh)
    (hsig : lh.take 4 = localSigBytes)
    (hm : entry.compression_method = 0) :
    (payloadStart entry lh + entry.compressed_size ≤ file.length →
      extract_file file entry inflate =
        .ok (some ((file.drop (payloadStart entry lh)).take entry.compressed_size)) ∧
      ((file.drop (payloadStart entry lh)).take entry.compressed_size).length =
        entry.compressed_size) ∧
    (file.length < payloadStart entry lh + entry.compressed_size →
      extract_file file entry inflate = .error) := by
  constructor
  · intro hle
    have hpay : readExact file (payloadStart entry lh) entry.compressed_size =
        some ((file.drop (payloadStart entry lh)).take entry.compressed_size) := by
      unfold readExact
      rw [if_pos hle]
    constructor
    · simp only [extract_file, hhdr]
      rw [if_neg (not_not_intro hsig)]
      simp only [hpay, hm]
    · rw [List.length_take, List.length_drop]
      omega
  · intro hgt
    have hpay : readExact file (payloadStart entry lh) entry.compressed_size =
        none := by
      unfold readExact
      rw [if_neg (by omega)]
    simp only [extract_file, hhdr]
    rw [if_neg (not_not_intro hsig)]
    simp only [hpay]

/-- C7 witness: a store entry of size 2 over `c7file` extracts the two
payload bytes verbatim. -/
theorem c7_store_verbatim_witness :
    extract_file c7file c7entry (fun _ => none) = .ok (some [104, 105]) := by
  have h := (c7_store_verbatim c7file c7entry (fun _ => none)
    (localSigBytes ++ List.replicate 26 0)
    (by decide) (by decide) (by decide)).1 (by decide)
  exact h.1.trans (by decide)

/-- C8: once the 30 local-header bytes are read, a signature mismatch
makes `extract_file` return `Ok(None)` — the skipped, non-error
outcome — and likewise any compression method other than 0 and 8
(after the payload read the source performs first) returns
`Ok(None)`. -/
theorem c8_skipped_outcomes (file : List Nat) (entry : ZipFileEntry)
    (inflate : List Nat → Option (List Nat)) (lh : List Nat)
    (hhdr : readExact file entry.file_offset 30 = some lh) :
    (lh.take 4 ≠ localSigBytes → extract_file file entry inflate = .ok none) ∧
    (∀ payload, lh.take 4 = localSigBytes →
      readExact file (payloadStart entry lh) entry.compressed_size = some payload →
      entry.compression_method ≠ 0 → entry.compression_method ≠ 8 →
      extract_file file entry inflate = .ok none) := by
  constructor
  · intro hneq
    simp only [extract_file, hhdr]
    rw [if_pos hneq]
  · intro payload hsig hpay hm0 hm8
    simp only [extract_file, hhdr]
    rw [if_neg (not_not_intro hsig)]
    simp only [hpay]

/-- C8 witness: an entry whose local header bytes (all zero) fail the
signature check is skipped with `Ok(None)`. -/
theorem c8_skipped_outcomes_witness :
    extract_file (List.replicate 30 0) ⟨[97], 0, 0, 0, 0⟩ (fun _ => none) =
      .ok none :=
  (c8_skipped_outcomes (List.replicate 30 0) ⟨[97], 0, 0, 0, 0⟩ (fun _ => none)
    (List.replicate 30 0) (by decide)).1 (by decide)

/-- C9: when the EOCD signature occurs nowhere in the tail window, the
locator reports absence as the successful outcome `Ok(None)` — neither
an error nor a panic. -/
theorem c9_absent_signature_ok_none (file : List Nat)
    (habs : ∀ i, i < (tailWindow file).length →
      sigAt (tailWindow file) i = false) :
    read_end_central_dir file = .ok none := by
  have hnone : scanBack (tailWindow file) = none :=
    scanBackAux_none_of_no_match (tailWindow file) ((tailWindow file).length - 4)
      fun i hi => habs i (by omega)
  simp only [read_end_central_dir, hnone]

/-- C9 witness: a 5-byte all-zero file contains no signature and the
locator returns `Ok(None)`. -/
theorem c9_absent_signature_ok_none_witness :
    read_end_central_dir [0, 0, 0, 0, 0] = .ok none :=
  c9_absent_signature_ok_none [0, 0, 0, 0, 0] (by decide)

/-- C10: on a signature match at `pos` with the full 18 record bytes in
the window, the locator's result is exactly `Ok(Some(v))` where `v` is
the little-endian 32-bit value of window bytes `pos+16..pos+20` — record
bytes 12..16 after the signature, the `central_directory_offset` — and
nothing else of the record is propagated; and the 18 record bytes are
parsed as the §6 layout: four 2-byte fields, two 4-byte fields, one
2-byte field, all little-endian, in order. -/
theorem c10_eocd_layout_and_propagation (file : List Nat) (pos : Nat)
    (hscan : scanBack (tailWindow file) = some pos)
    (hle : pos + 22 ≤ (tailWindow file).length) :
    read_end_central_dir file =
      .ok (some (le32 ((tailWindow file).getD (pos + 16) 0)
        ((tailWindow file).getD (pos + 17) 0)
        ((tailWindow file).getD (pos + 18) 0)
        ((tailWindow file).getD (pos + 19) 0))) ∧
    (∀ b0 b1 b2 b3 b4 b5 b6 b7 b8 b9 b10 b11 b12 b13 b14 b15 b16 b17 : Nat,
      parseEocd [b0, b1, b2, b3, b4, b5, b6, b7, b8, b9, b10, b11, b12, b13,
        b14, b15, b16, b17] =
        ⟨le16 b0 b1, le16 b2 b3, le16 b4 b5, le16 b6 b7,
         le32 b8 b9 b10 b11, le32 b12 b13 b14 b15, le16 b16 b17⟩) := by
  constructor
  · simp only [read_end_central_dir, hscan]
    rw [if_pos hle]
    have h12 := getD_drop_take (tailWindow file) (pos + 4) 18 12 (by omega)
    have h13 := getD_drop_take (tailWindow file) (pos + 4) 18 13 (by omega)
    have h14 := getD_drop_take (tailWindow file) (pos + 4) 18 14 (by omega)
    have h15 := getD_drop_take (tailWindow file) (pos + 4) 18 15 (by omega)
    simp only [parseEocd, h12, h13, h14, h15]
  · intro b0 b1 b2 b3 b4 b5 b6 b7 b8 b9 b10 b11 b12 b13 b14 b15 b16 b17
    rfl

/-- C10 witness: on the concrete one-record file `c10file` the locator
propagates exactly the declared directory offset 7. -/
theorem c10_eocd_layout_and_propagation_witness :
    read_end_central_dir c10file = .ok (some 7) := by
  have h := (c10_eocd_layout_and_propagation c10file 0 (by decide) (by decide)).1
  exact h.trans (by decide)
